import Mathlib

/-!
Verification of the rotary positional embedding module
(`vllm/model_executor/layers/rotary_embedding.py`).

The development is a shallow embedding of the Python source:

* tensors of cosine/sine values become `List (List ℝ)`;
* Python ints become `ℕ`/`ℤ`, Python floats become `ℝ` (or `ℚ` where the
  value is exactly representable and compared for equality, as the
  adaptive alpha is);
* `math.ceil(math.log(x, 2))` is embedded as `Int.clog 2 x` on rationals
  (the exact ceiling of the base-2 logarithm);
* code that raises a Python exception (`ZeroDivisionError` from the NTK
  exponent `rotary_dim / (rotary_dim - 2)` with `rotary_dim = 2`,
  `torch.cat` applied to an empty list) returns `Except String`.
-/

/-- Configuration fields shared by every rotary-embedding variant
(`RotaryEmbedding.__init__`). -/
structure RotaryConfig where
  head_size : ℕ
  rotary_dim : ℕ
  max_position_embeddings : ℕ
  base : ℝ
  is_neox_style : Bool

/-- Configuration of `DynamicNTKScalingRotaryEmbeddingQwen`: the shared
fields plus the reference length `seq_length` (stored by the constructor as
`_config_seq_length`, 8192 for Qwen-7B). -/
structure QwenConfig extends RotaryConfig where
  config_seq_length : ℕ

/-- Embedding of `RotaryEmbedding._compute_inv_freq`:
`1.0 / (base ** (torch.arange(0, rotary_dim, 2) / rotary_dim))`,
i.e. the list of `1 / base ^ (2 j / rotary_dim)` for
`j = 0, 1, ..., ⌈rotary_dim / 2⌉ - 1`. -/
noncomputable def compute_inv_freq (rotary_dim : ℕ) (base : ℝ) : List ℝ :=
  (List.range ((rotary_dim + 1) / 2)).map fun j =>
    1 / base ^ (((2 * j : ℕ) : ℝ) / (rotary_dim : ℝ))

/-- One row of the cos/sin cache at (unscaled) position `p`: the cosines of
`p * inv_freq[j]` followed by the sines (`torch.cat((cos, sin), dim=-1)`
applied to row `p` of `torch.einsum("i,j -> ij", t, inv_freq)`). -/
noncomputable def cacheRow (base : ℝ) (rotary_dim : ℕ) (p : ℕ) : List ℝ :=
  ((compute_inv_freq rotary_dim base).map fun f => Real.cos ((p : ℝ) * f)) ++
    ((compute_inv_freq rotary_dim base).map fun f => Real.sin ((p : ℝ) * f))

/-- The cos/sin table over positions `0, 1, ..., len - 1`
(`t = torch.arange(len)` followed by the einsum / cos / sin / cat). -/
noncomputable def buildCosSinTable (base : ℝ) (rotary_dim len : ℕ) : List (List ℝ) :=
  (List.range len).map (cacheRow base rotary_dim)

/-- Embedding of `RotaryEmbedding._compute_cos_sin_cache`: the baseline table, built with
the configured (unscaled) `base` over `max_position_embeddings` positions. -/
noncomputable def RotaryEmbedding_compute_cos_sin_cache (cfg : RotaryConfig) :
    List (List ℝ) :=
  buildCosSinTable cfg.base cfg.rotary_dim cfg.max_position_embeddings

/-- Embedding of `DynamicNTKScalingRotaryEmbedding._compute_cos_sin_cache` (the fixed
dynamic-NTK variant).  Runs at construction time.  The Python expression
`base * (scaling_factor * max_len / max_position_embeddings -
(scaling_factor - 1)) ** (rotary_dim / (rotary_dim - 2))` raises
`ZeroDivisionError` when `max_position_embeddings = 0` (the base of the
power is evaluated first) or when `rotary_dim = 2` (the exponent divides by
zero); both are embedded as errors.  `torch.arange(max_len)` on the float
`max_len` has `⌈max_len⌉` entries. -/
noncomputable def DynamicNTKScalingRotaryEmbedding_compute_cos_sin_cache
    (cfg : RotaryConfig) (scaling_factor : ℚ) : Except String (List (List ℝ)) :=
  if cfg.max_position_embeddings = 0 then .error "ZeroDivisionError"
  else if cfg.rotary_dim = 2 then .error "ZeroDivisionError"
  else
    let max_len : ℚ := (cfg.max_position_embeddings : ℚ) * scaling_factor
    let base : ℝ := cfg.base *
      ((scaling_factor * max_len / (cfg.max_position_embeddings : ℚ) -
          (scaling_factor - 1) : ℚ) : ℝ) ^
        ((cfg.rotary_dim : ℝ) / ((cfg.rotary_dim : ℝ) - 2))
    .ok (buildCosSinTable base cfg.rotary_dim ⌈max_len⌉₊)

/-- Mutable state of a `DynamicNTKScalingRotaryEmbeddingQwen` instance:
`_seq_len_cached`, `_ntk_alpha_cached` and the buffer `cos_sin_cache`. -/
structure QwenState where
  seq_len_cached : ℕ
  ntk_alpha_cached : ℚ
  cos_sin_cache : List (List ℝ)

/-- Embedding of `DynamicNTKScalingRotaryEmbeddingQwen.get_ntk_alpha`:
`ntk_alpha = max(2 ** math.ceil(math.log(true_seq_len / seq_length, 2) + 1) - 1, 1)`.
Since `⌈x + 1⌉ = ⌈x⌉ + 1` and `Int.clog 2 q = ⌈log₂ q⌉` for `q > 0`, the
exponent `math.ceil(context_value)` is `Int.clog 2 (true_seq_len / seq_length) + 1`.
(The source raises on `true_seq_len = 0` or `seq_length = 0`, where
`math.log` is undefined; every theorem below assumes both are positive.) -/
def get_ntk_alpha (cfg : QwenConfig) (true_seq_len : ℕ) : ℚ :=
  let context_value : ℤ :=
    Int.clog 2 ((true_seq_len : ℚ) / (cfg.config_seq_length : ℚ)) + 1
  max ((2 : ℚ) ^ context_value - 1) 1

/-- Embedding of `DynamicNTKScalingRotaryEmbeddingQwen.__init__`: sets
`_seq_len_cached = 0` and `_ntk_alpha_cached = 1.0`, then delegates to
`RotaryEmbedding.__init__`, which builds the *baseline* cache
(`_compute_cos_sin_cache` is not overridden by the Qwen class) over
`max_position_embeddings` positions with the unscaled `base`. -/
noncomputable def qwenInit (cfg : QwenConfig) : QwenState :=
  { seq_len_cached := 0
    ntk_alpha_cached := 1
    cos_sin_cache := RotaryEmbedding_compute_cos_sin_cache cfg.toRotaryConfig }

/-- Embedding of `DynamicNTKScalingRotaryEmbeddingQwen._update_cos_sin_cache`.  When the
rebuild branch is taken, the exponent `rotary_dim / (rotary_dim - 2)` raises
`ZeroDivisionError` for `rotary_dim = 2`; otherwise the cache is rebuilt
with effective base `base * ntk_alpha ** (rotary_dim / (rotary_dim - 2))`
over `max(2 * max_seq_len, 16)` unscaled positions. -/
noncomputable def update_cos_sin_cache (cfg : QwenConfig) (s : QwenState)
    (max_seq_len : ℕ) : Except String QwenState :=
  let ntk_alpha := get_ntk_alpha cfg max_seq_len
  if max_seq_len > s.seq_len_cached ∨ ntk_alpha ≠ s.ntk_alpha_cached then
    if cfg.rotary_dim = 2 then .error "ZeroDivisionError"
    else
      let seq_len_cached := max (2 * max_seq_len) 16
      .ok { seq_len_cached := seq_len_cached
            ntk_alpha_cached := ntk_alpha
            cos_sin_cache := buildCosSinTable
              (cfg.base * ((ntk_alpha : ℝ)) ^
                ((cfg.rotary_dim : ℝ) / ((cfg.rotary_dim : ℝ) - 2)))
              cfg.rotary_dim seq_len_cached }
  else .ok s

/-- The successful branch of `update_cos_sin_cache`: the same recompute
policy, as a total function on states (the two agree whenever
`rotary_dim ≠ 2`, see `update_cos_sin_cache_eq_ok`). -/
noncomputable def updatePure (cfg : QwenConfig) (s : QwenState)
    (max_seq_len : ℕ) : QwenState :=
  let ntk_alpha := get_ntk_alpha cfg max_seq_len
  if max_seq_len > s.seq_len_cached ∨ ntk_alpha ≠ s.ntk_alpha_cached then
    { seq_len_cached := max (2 * max_seq_len) 16
      ntk_alpha_cached := ntk_alpha
      cos_sin_cache := buildCosSinTable
        (cfg.base * ((ntk_alpha : ℝ)) ^
          ((cfg.rotary_dim : ℝ) / ((cfg.rotary_dim : ℝ) - 2)))
        cfg.rotary_dim (max (2 * max_seq_len) 16) }
  else s

/-- A concrete Qwen-7B-style configuration, used by the witnesses. -/
def cfgW : QwenConfig :=
  { head_size := 128, rotary_dim := 128, max_position_embeddings := 2048,
    base := 10000, is_neox_style := true, config_seq_length := 8192 }

/-! ### The batch application driver (`DynamicNTKScalingRotaryEmbeddingQwen.forward`) -/

/-- Per-call batch metadata (`vllm.model_executor.input_metadata.InputMetadata`,
restricted to the two fields `forward` reads): `prompt_lens` (prefill
sequence lengths, a list) and `context_lens` (decode context lengths, a
tensor, embedded as the list `context_lens.tolist()`). -/
structure InputMetadata where
  prompt_lens : List ℕ
  context_lens : List ℕ

/-- The metadata dispatch at the top of `forward`: if `prompt_lens` is
non-empty this is a first (prefill) forward and `prompt_lens` is used with
`is_continue = False`; otherwise the lengths are `context_lens.tolist()`
with `is_continue = True`. -/
def seqLensAndMode (input_metadata : InputMetadata) : List ℕ × Bool :=
  if input_metadata.prompt_lens.length > 0 then (input_metadata.prompt_lens, false)
  else (input_metadata.context_lens, true)

/-- The external rotation kernel `pos_encoding_ops.rotary_embedding`
applied to one slice.  The kernel itself is an external collaborator; it is
modelled by an abstract per-row function `rot head_size cache style p row`
(each token row is rotated using the cache row selected by its position),
mapped over the slice. -/
def applyKernel {α : Type} (rot : ℕ → List (List ℝ) → Bool → ℕ → α → α)
    (head_size : ℕ) (cache : List (List ℝ)) (style : Bool)
    (ps : List ℕ) (xs : List α) : List α :=
  List.zipWith (fun p x => rot head_size cache style p x) ps xs

/-- The per-sample loop of `forward`: `_prev` is the running flat offset;
for each `seq_len` the slice is `[_start:_end)` (`_end = _start + 1` in
decode mode, `_start + seq_len` in prefill mode), except that the last
sample takes everything from `_start` to the end of the flat buffers
("reach paddings"); `_update_cos_sin_cache(seq_len)` runs before the
kernel call, and its `ZeroDivisionError` propagates.  The per-sample
output slices are concatenated in batch order. -/
noncomputable def qwenForwardLoop {α : Type}
    (cfg : QwenConfig) (rotQ rotK : ℕ → List (List ℝ) → Bool → ℕ → α → α)
    (positions : List ℕ) (query key : List α) (is_continue : Bool) :
    QwenState → ℕ → List ℕ → Except String (List α × List α × QwenState)
  | s, _, [] => .ok ([], [], s)
  | s, _prev, seq_len :: rest =>
    let _start := _prev
    let _end := if is_continue then _start + 1 else _start + seq_len
    let _query := if rest.isEmpty then query.drop _start
      else (query.drop _start).take (_end - _start)
    let _key := if rest.isEmpty then key.drop _start
      else (key.drop _start).take (_end - _start)
    let _positions := if rest.isEmpty then positions.drop _start
      else (positions.drop _start).take (_end - _start)
    match update_cos_sin_cache cfg s seq_len with
    | .error e => .error e
    | .ok s2 =>
      let q1 := applyKernel rotQ cfg.head_size s2.cos_sin_cache cfg.is_neox_style
        _positions _query
      let k1 := applyKernel rotK cfg.head_size s2.cos_sin_cache cfg.is_neox_style
        _positions _key
      match qwenForwardLoop cfg rotQ rotK positions query key is_continue s2 _end rest with
      | .error e => .error e
      | .ok (q2, k2, s3) => .ok (q1 ++ q2, k1 ++ k2, s3)

/-- Embedding of `DynamicNTKScalingRotaryEmbeddingQwen.forward`: dispatch on the
metadata, run the per-sample loop from offset 0, then
`torch.cat(query_list)` / `torch.cat(key_list)` — which raises when the
batch (and hence the list of slices) is empty. -/
noncomputable def qwenForward {α : Type} (cfg : QwenConfig)
    (rotQ rotK : ℕ → List (List ℝ) → Bool → ℕ → α → α)
    (positions : List ℕ) (query key : List α)
    (input_metadata : InputMetadata) (s : QwenState) :
    Except String (List α × List α × QwenState) :=
  let sl := seqLensAndMode input_metadata
  match qwenForwardLoop cfg rotQ rotK positions query key sl.2 s 0 sl.1 with
  | .error e => .error e
  | .ok (q, k, s') =>
    if sl.1.isEmpty then .error "torch.cat(): expected a non-empty list of tensors"
    else .ok (q, k, s')

/-- Width (number of token rows) of the slice of one sample: its declared
length in prefill mode, exactly one token in decode mode. -/
def sampleWidth (is_continue : Bool) (seq_len : ℕ) : ℕ :=
  if is_continue then 1 else seq_len

/-- Sum of the widths of every sample except the last (the slice of the last sample extends to the end of the flat buffers regardless of its width). -/
def sumInit (is_continue : Bool) : List ℕ → ℕ
  | [] => 0
  | [_] => 0
  | seq_len :: rest => sampleWidth is_continue seq_len + sumInit is_continue rest

/-- Index of the sample whose slice contains flat row `t`: rows are
consumed width by width, and every row at or beyond the start of the last sample belongs to the last sample (padding absorption). -/
def sampleIdx (is_continue : Bool) : List ℕ → ℕ → ℕ
  | [], _ => 0
  | [_], _ => 0
  | seq_len :: rest, t =>
    if t < sampleWidth is_continue seq_len then 0
    else sampleIdx is_continue rest (t - sampleWidth is_continue seq_len) + 1

/-- The cache state in force while sample `i` is processed: the initial
state updated, in batch order, by the first `i + 1` recompute calls. -/
noncomputable def stateAfter (cfg : QwenConfig) (s : QwenState)
    (lens : List ℕ) (i : ℕ) : QwenState :=
  (lens.take (i + 1)).foldl (updatePure cfg) s

/-- A trivially concrete rotation kernel (identity on rows), used by the
witnesses. -/
def idKernel (α : Type) : ℕ → List (List ℝ) → Bool → ℕ → α → α :=
  fun _ _ _ _ x => x

/-- A concrete configuration with `rotary_dim = 2`, used to exhibit the
deferred division-by-zero of the adaptive variant. -/
def cfgRd2 : QwenConfig :=
  { head_size := 128, rotary_dim := 2, max_position_embeddings := 64,
    base := 10000, is_neox_style := true, config_seq_length := 8192 }

lemma update_cos_sin_cache_eq_ok (cfg : QwenConfig) (s : QwenState)
    (t : ℕ) (hrd : cfg.rotary_dim ≠ 2) :
    update_cos_sin_cache cfg s t = .ok (updatePure cfg s t) := by
  by_cases h : t > s.seq_len_cached ∨ get_ntk_alpha cfg t ≠ s.ntk_alpha_cached
  · simp only [update_cos_sin_cache, updatePure, if_pos h, if_neg hrd]
  · simp only [update_cos_sin_cache, updatePure, if_neg h]

/-! ### Properties of the adaptive alpha function -/

lemma clog2_eq_of {q : ℚ} {k : ℤ} (h0 : 0 < q) (h1 : q ≤ 2 ^ k)
    (h2 : (2 : ℚ) ^ (k - 1) < q) : Int.clog 2 q = k := by
  have hc : ((2 : ℕ) : ℚ) = (2 : ℚ) := by norm_num
  have hle : Int.clog 2 q ≤ k :=
    (Int.le_zpow_iff_clog_le one_lt_two h0).mp (by rw [hc]; exact h1)
  have hge : k ≤ Int.clog 2 q := by
    by_contra hlt
    push_neg at hlt
    have h3 : q ≤ ((2 : ℕ) : ℚ) ^ (k - 1) :=
      (Int.le_zpow_iff_clog_le one_lt_two h0).mpr (by omega)
    rw [hc] at h3
    exact absurd h3 (not_le.mpr h2)
  omega

lemma get_ntk_alpha_eq_one {cfg : QwenConfig} {t : ℕ} (ht : 1 ≤ t)
    (href : 0 < cfg.config_seq_length) (hle : t ≤ cfg.config_seq_length) :
    get_ntk_alpha cfg t = 1 := by
  unfold get_ntk_alpha
  have h0 : (0 : ℚ) < (t : ℚ) / (cfg.config_seq_length : ℚ) :=
    div_pos (by exact_mod_cast ht) (by exact_mod_cast href)
  have h1 : (t : ℚ) / (cfg.config_seq_length : ℚ) ≤ 1 := by
    rw [div_le_one (by exact_mod_cast href)]
    exact_mod_cast hle
  have hclog : Int.clog 2 ((t : ℚ) / (cfg.config_seq_length : ℚ)) ≤ 0 := by
    have := (Int.le_zpow_iff_clog_le (R := ℚ) one_lt_two h0 (x := 0)).mp
      (by simpa using h1)
    exact this
  have hpow : (2 : ℚ) ^ (Int.clog 2 ((t : ℚ) / (cfg.config_seq_length : ℚ)) + 1) ≤
      (2 : ℚ) ^ (1 : ℤ) := zpow_le_zpow_right₀ one_le_two (by omega)
  have : (2 : ℚ) ^ (Int.clog 2 ((t : ℚ) / (cfg.config_seq_length : ℚ)) + 1) - 1 ≤ 1 := by
    simp only [zpow_one] at hpow
    linarith
  exact max_eq_right this

lemma get_ntk_alpha_mono {cfg : QwenConfig} {t₁ t₂ : ℕ} (ht : 1 ≤ t₁)
    (href : 0 < cfg.config_seq_length) (h : t₁ ≤ t₂) :
    get_ntk_alpha cfg t₁ ≤ get_ntk_alpha cfg t₂ := by
  unfold get_ntk_alpha
  have h0 : (0 : ℚ) < (t₁ : ℚ) / (cfg.config_seq_length : ℚ) :=
    div_pos (by exact_mod_cast ht) (by exact_mod_cast href)
  have hdiv : (t₁ : ℚ) / (cfg.config_seq_length : ℚ) ≤
      (t₂ : ℚ) / (cfg.config_seq_length : ℚ) :=
    div_le_div_of_nonneg_right (by exact_mod_cast h) (by exact_mod_cast href.le)
  have hclog := Int.clog_mono_right (b := 2) h0 hdiv
  have hpow := zpow_le_zpow_right₀ (a := (2 : ℚ)) one_le_two
    (add_le_add_right hclog 1)
  exact max_le_max (by linarith) le_rfl

lemma get_ntk_alpha_one_le (cfg : QwenConfig) (t : ℕ) :
    1 ≤ get_ntk_alpha cfg t :=
  le_max_right _ _

lemma get_ntk_alpha_eval {cfg : QwenConfig} {t : ℕ} {k : ℤ}
    (h : Int.clog 2 ((t : ℚ) / (cfg.config_seq_length : ℚ)) = k) :
    get_ntk_alpha cfg t = max ((2 : ℚ) ^ (k + 1) - 1) 1 := by
  unfold get_ntk_alpha
  rw [h]

/-- Claim C2: the adaptive alpha function satisfies
`alpha(true_len) = max(1, 2^ceil(log2(true_len / reference_length) + 1) - 1)`
(with `ceil(log2 q)` rendered as `Int.clog 2 q`); it is monotone
non-decreasing in `true_len`; it equals `1` whenever
`true_len ≤ reference_length`; and for `reference_length = 8192` it takes
the values `1, 3, 3, 7` at `true_len = 8192, 8193, 16384, 32768`. -/
theorem get_ntk_alpha_spec (cfg : QwenConfig) (href : 0 < cfg.config_seq_length) :
    (∀ t, 1 ≤ t →
      get_ntk_alpha cfg t =
        max 1 ((2 : ℚ) ^ (Int.clog 2 ((t : ℚ) / (cfg.config_seq_length : ℚ)) + 1) - 1)) ∧
    (∀ t₁ t₂, 1 ≤ t₁ → t₁ ≤ t₂ → get_ntk_alpha cfg t₁ ≤ get_ntk_alpha cfg t₂) ∧
    (∀ t, 1 ≤ t → t ≤ cfg.config_seq_length → get_ntk_alpha cfg t = 1) ∧
    (cfg.config_seq_length = 8192 →
      get_ntk_alpha cfg 8192 = 1 ∧ get_ntk_alpha cfg 8193 = 3 ∧
      get_ntk_alpha cfg 16384 = 3 ∧ get_ntk_alpha cfg 32768 = 7) := by
  refine ⟨fun t _ => max_comm _ _, fun t₁ t₂ ht h => get_ntk_alpha_mono ht href h,
    fun t ht hle => get_ntk_alpha_eq_one ht href hle, fun h8192 => ?_⟩
  have c0 : Int.clog 2 ((8192 : ℚ) / (cfg.config_seq_length : ℚ)) = 0 := by
    rw [h8192]
    norm_num [Int.clog_one_right]
  have c1 : Int.clog 2 ((8193 : ℚ) / (cfg.config_seq_length : ℚ)) = 1 := by
    rw [h8192]
    exact clog2_eq_of (by norm_num) (by norm_num) (by norm_num)
  have c2 : Int.clog 2 ((16384 : ℚ) / (cfg.config_seq_length : ℚ)) = 1 := by
    rw [h8192]
    exact clog2_eq_of (by norm_num) (by norm_num) (by norm_num)
  have c3 : Int.clog 2 ((32768 : ℚ) / (cfg.config_seq_length : ℚ)) = 2 := by
    rw [h8192]
    exact clog2_eq_of (by norm_num) (by norm_num) (by norm_num)
  refine ⟨?_, ?_, ?_, ?_⟩
  · rw [get_ntk_alpha_eval c0]; norm_num
  · rw [get_ntk_alpha_eval c1]; norm_num
  · rw [get_ntk_alpha_eval c2]; norm_num
  · rw [get_ntk_alpha_eval c3]; norm_num

/-- Witness for `get_ntk_alpha_spec` at the concrete Qwen-7B configuration. -/
theorem get_ntk_alpha_spec_witness :
    0 < cfgW.config_seq_length ∧
      get_ntk_alpha cfgW 8192 = 1 ∧ get_ntk_alpha cfgW 8193 = 3 ∧
      get_ntk_alpha cfgW 16384 = 3 ∧ get_ntk_alpha cfgW 32768 = 7 :=
  ⟨by norm_num [cfgW], (get_ntk_alpha_spec cfgW (by norm_num [cfgW])).2.2.2 rfl⟩

/-! ### The recompute policy -/

lemma buildCosSinTable_length (b : ℝ) (rd n : ℕ) :
    (buildCosSinTable b rd n).length = n := by
  simp [buildCosSinTable]

lemma buildCosSinTable_getElem? (b : ℝ) (rd : ℕ) {p n : ℕ} (h : p < n) :
    (buildCosSinTable b rd n)[p]? = some (cacheRow b rd p) := by
  simp [buildCosSinTable, h]

/-- Claim C1: the adaptive recompute policy rebuilds iff
`true_len > cached_length` or `alpha(true_len) ≠ cached_alpha`; a rebuild
uses effective base `base * alpha^(rotary_dim/(rotary_dim-2))`, sets the new
`cached_length` to `max(2*true_len, 16)`, builds the table over exactly
`cached_length` unscaled positions, and stores `alpha(true_len)`; otherwise
the whole state (table, `cached_length`, `cached_alpha`) is unchanged. -/
theorem update_cos_sin_cache_spec (cfg : QwenConfig) (hrd : cfg.rotary_dim ≠ 2)
    (s : QwenState) (t : ℕ) (ht : 1 ≤ t) :
    ((t > s.seq_len_cached ∨ get_ntk_alpha cfg t ≠ s.ntk_alpha_cached) →
      ∃ s', update_cos_sin_cache cfg s t = .ok s' ∧
        s'.seq_len_cached = max (2 * t) 16 ∧
        s'.ntk_alpha_cached = get_ntk_alpha cfg t ∧
        s'.cos_sin_cache.length = max (2 * t) 16 ∧
        ∀ p < max (2 * t) 16, s'.cos_sin_cache[p]? =
          some (cacheRow
            (cfg.base * ((get_ntk_alpha cfg t : ℝ)) ^
              ((cfg.rotary_dim : ℝ) / ((cfg.rotary_dim : ℝ) - 2)))
            cfg.rotary_dim p)) ∧
    (¬(t > s.seq_len_cached ∨ get_ntk_alpha cfg t ≠ s.ntk_alpha_cached) →
      update_cos_sin_cache cfg s t = .ok s) := by
  constructor
  · intro hc
    have hp : updatePure cfg s t =
        { seq_len_cached := max (2 * t) 16
          ntk_alpha_cached := get_ntk_alpha cfg t
          cos_sin_cache := buildCosSinTable
            (cfg.base * ((get_ntk_alpha cfg t : ℝ)) ^
              ((cfg.rotary_dim : ℝ) / ((cfg.rotary_dim : ℝ) - 2)))
            cfg.rotary_dim (max (2 * t) 16) } := by
      simp only [updatePure, if_pos hc]
    refine ⟨updatePure cfg s t, update_cos_sin_cache_eq_ok cfg s t hrd, ?_, ?_, ?_, ?_⟩
    · rw [hp]
    · rw [hp]
    · rw [hp]
      exact buildCosSinTable_length _ _ _
    · intro p hple
      rw [hp]
      exact buildCosSinTable_getElem? _ _ hple
  · intro hc
    simp only [update_cos_sin_cache, if_neg hc]

/-- Witness for `update_cos_sin_cache_spec`: from the freshly constructed
state, a call with `true_len = 3` rebuilds to `cached_length = 16`. -/
theorem update_cos_sin_cache_spec_witness :
    ∃ s', update_cos_sin_cache cfgW (qwenInit cfgW) 3 = .ok s' ∧
      s'.seq_len_cached = 16 ∧ s'.ntk_alpha_cached = get_ntk_alpha cfgW 3 := by
  obtain ⟨s', h1, h2, h3, -, -⟩ :=
    (update_cos_sin_cache_spec cfgW (by norm_num [cfgW]) (qwenInit cfgW) 3
        (by norm_num)).1 (Or.inl (by simp [qwenInit]))
  exact ⟨s', h1, by rw [h2]; norm_num, h3⟩

/-! ### Policy-level lemmas -/

lemma updatePure_of_rebuild (cfg : QwenConfig) (s : QwenState) (t : ℕ)
    (hc : t > s.seq_len_cached ∨ get_ntk_alpha cfg t ≠ s.ntk_alpha_cached) :
    updatePure cfg s t =
      { seq_len_cached := max (2 * t) 16
        ntk_alpha_cached := get_ntk_alpha cfg t
        cos_sin_cache := buildCosSinTable
          (cfg.base * ((get_ntk_alpha cfg t : ℝ)) ^
            ((cfg.rotary_dim : ℝ) / ((cfg.rotary_dim : ℝ) - 2)))
          cfg.rotary_dim (max (2 * t) 16) } := by
  simp only [updatePure, if_pos hc]

lemma updatePure_of_no_rebuild (cfg : QwenConfig) (s : QwenState) (t : ℕ)
    (hc : ¬(t > s.seq_len_cached ∨ get_ntk_alpha cfg t ≠ s.ntk_alpha_cached)) :
    updatePure cfg s t = s := by
  simp only [updatePure, if_neg hc]

lemma update_cos_sin_cache_error (cfg : QwenConfig) (s : QwenState) (t : ℕ)
    (hc : t > s.seq_len_cached ∨ get_ntk_alpha cfg t ≠ s.ntk_alpha_cached)
    (hrd : cfg.rotary_dim = 2) :
    update_cos_sin_cache cfg s t = .error "ZeroDivisionError" := by
  simp only [update_cos_sin_cache, if_pos hc, if_pos hrd]

lemma updatePure_seq_len_cases (cfg : QwenConfig) (s : QwenState) (t : ℕ) :
    (updatePure cfg s t).seq_len_cached = s.seq_len_cached ∨
      (updatePure cfg s t).seq_len_cached = max (2 * t) 16 := by
  by_cases hc : t > s.seq_len_cached ∨ get_ntk_alpha cfg t ≠ s.ntk_alpha_cached
  · right
    rw [updatePure_of_rebuild cfg s t hc]
  · left
    rw [updatePure_of_no_rebuild cfg s t hc]

/-- Claim C9: calling the recompute policy twice in a row with the same
`true_len` triggers at most one rebuild — whatever the first call produced,
the second call returns it unchanged (table, `cached_length` and
`cached_alpha` included). -/
theorem update_cos_sin_cache_idempotent (cfg : QwenConfig) (s s' : QwenState)
    (t : ℕ) (ht : 1 ≤ t) (h : update_cos_sin_cache cfg s t = .ok s') :
    update_cos_sin_cache cfg s' t = .ok s' := by
  by_cases hc : t > s.seq_len_cached ∨ get_ntk_alpha cfg t ≠ s.ntk_alpha_cached
  · by_cases hrd : cfg.rotary_dim = 2
    · rw [update_cos_sin_cache_error cfg s t hc hrd] at h
      exact absurd h (by simp)
    · rw [update_cos_sin_cache_eq_ok cfg s t hrd] at h
      simp only [Except.ok.injEq] at h
      subst h
      rw [update_cos_sin_cache_eq_ok cfg _ t hrd,
        updatePure_of_no_rebuild cfg _ t ?_]
      rw [updatePure_of_rebuild cfg s t hc]
      push_neg
      exact ⟨le_max_of_le_left (by omega), rfl⟩
  · simp only [update_cos_sin_cache, if_neg hc, Except.ok.injEq] at h
    subst h
    simp only [update_cos_sin_cache, if_neg hc]

/-- Witness for `update_cos_sin_cache_idempotent` at `true_len = 3` from the
freshly constructed state. -/
theorem update_cos_sin_cache_idempotent_witness :
    update_cos_sin_cache cfgW (updatePure cfgW (qwenInit cfgW) 3) 3 =
      .ok (updatePure cfgW (qwenInit cfgW) 3) :=
  update_cos_sin_cache_idempotent cfgW (qwenInit cfgW) _ 3 (by norm_num)
    (update_cos_sin_cache_eq_ok cfgW (qwenInit cfgW) 3 (by norm_num [cfgW]))

/-- Claim C7, amended: a rebuild *triggered by the length condition*
(`true_len > cached_length`) never shrinks the cache.  (A rebuild triggered
solely by an alpha change can shrink it — see
`update_cos_sin_cache_shrink_cex`.) -/
theorem update_no_shrink_of_len_trigger (cfg : QwenConfig) (s s' : QwenState)
    (t : ℕ) (ht : 1 ≤ t) (h : update_cos_sin_cache cfg s t = .ok s')
    (hlen : s.seq_len_cached < t) :
    s.seq_len_cached ≤ s'.seq_len_cached := by
  by_cases hrd : cfg.rotary_dim = 2
  · rw [update_cos_sin_cache_error cfg s t (Or.inl hlen) hrd] at h
    exact absurd h (by simp)
  · rw [update_cos_sin_cache_eq_ok cfg s t hrd] at h
    simp only [Except.ok.injEq] at h
    subst h
    rw [updatePure_of_rebuild cfg s t (Or.inl hlen)]
    exact le_max_of_le_left (by omega)

/-- Witness for `update_no_shrink_of_len_trigger`: growing the fresh state
with `true_len = 3` does not shrink the (empty) cache metadata. -/
theorem update_no_shrink_of_len_trigger_witness :
    (qwenInit cfgW).seq_len_cached ≤
      (updatePure cfgW (qwenInit cfgW) 3).seq_len_cached :=
  update_no_shrink_of_len_trigger cfgW (qwenInit cfgW) _ 3 (by norm_num)
    (update_cos_sin_cache_eq_ok cfgW (qwenInit cfgW) 3 (by norm_num [cfgW]))
    (by simp [qwenInit])

/-- Counterexample to `C7` as stated: from the cache state
`(cached_length, cached_alpha) = (100, 2)` a call with `true_len = 1`
triggers a rebuild (because `alpha(1) = 1 ≠ 2`), and the rebuild *shrinks*
the cache from 100 to `max(2·1, 16) = 16` rows. -/
theorem update_cos_sin_cache_shrink_cex :
    get_ntk_alpha cfgW 1 ≠ (⟨100, 2, []⟩ : QwenState).ntk_alpha_cached ∧
    update_cos_sin_cache cfgW ⟨100, 2, []⟩ 1 =
      .ok (updatePure cfgW ⟨100, 2, []⟩ 1) ∧
    (updatePure cfgW ⟨100, 2, []⟩ 1).seq_len_cached = 16 ∧
    (⟨100, 2, []⟩ : QwenState).seq_len_cached = 100 := by
  have halpha : get_ntk_alpha cfgW 1 = 1 :=
    get_ntk_alpha_eq_one (by norm_num) (by norm_num [cfgW]) (by norm_num [cfgW])
  have hne : get_ntk_alpha cfgW 1 ≠ (⟨100, 2, []⟩ : QwenState).ntk_alpha_cached := by
    rw [halpha]
    norm_num
  refine ⟨hne, update_cos_sin_cache_eq_ok cfgW _ 1 (by norm_num [cfgW]), ?_, rfl⟩
  rw [updatePure_of_rebuild cfgW _ 1 (Or.inr hne)]
  norm_num

/-! ### Monotone growth across call sequences -/

lemma chain_le_head {t : ℕ} {l : List ℕ} (h : List.Chain' (· ≤ ·) (t :: l)) :
    ∀ x ∈ l, t ≤ x := by
  induction l generalizing t with
  | nil => simp
  | cons a l ih =>
    intro x hx
    rw [List.chain'_cons] at h
    rcases List.mem_cons.mp hx with rfl | hx
    · exact h.1
    · exact le_trans h.1 (ih h.2 x hx)

lemma scanl_len_chain (cfg : QwenConfig) :
    ∀ (ts : List ℕ) (s : QwenState) (u : ℕ),
      (∀ t ∈ ts, u ≤ t) → List.Chain' (· ≤ ·) ts →
      (s.seq_len_cached = 0 ∨ s.seq_len_cached = max (2 * u) 16) →
      List.Chain' (· ≤ ·)
        ((ts.scanl (updatePure cfg) s).map QwenState.seq_len_cached) := by
  intro ts
  induction ts with
  | nil =>
    intro s u _ _ _
    simp [List.scanl]
  | cons t rest ih =>
    intro s u hu hch hinv
    have hstep : s.seq_len_cached ≤ (updatePure cfg s t).seq_len_cached := by
      by_cases hc : t > s.seq_len_cached ∨ get_ntk_alpha cfg t ≠ s.ntk_alpha_cached
      · rw [updatePure_of_rebuild cfg s t hc]
        rcases hinv with h0 | hmx
        · rw [h0]
          exact Nat.zero_le _
        · rw [hmx]
          exact max_le_max (by have := hu t (List.mem_cons_self t rest); omega) le_rfl
      · rw [updatePure_of_no_rebuild cfg s t hc]
    have hinv' : (updatePure cfg s t).seq_len_cached = 0 ∨
        ∃ u', (∀ x ∈ rest, u' ≤ x) ∧
          (updatePure cfg s t).seq_len_cached = max (2 * u') 16 := by
      by_cases hc : t > s.seq_len_cached ∨ get_ntk_alpha cfg t ≠ s.ntk_alpha_cached
      · right
        refine ⟨t, chain_le_head hch, ?_⟩
        rw [updatePure_of_rebuild cfg s t hc]
      · rw [updatePure_of_no_rebuild cfg s t hc]
        rcases hinv with h0 | hmx
        · exact Or.inl h0
        · exact Or.inr ⟨u, fun x hx => hu x (List.mem_cons_of_mem t hx), hmx⟩
    rw [List.scanl_cons, List.singleton_append, List.map_cons]
    rw [List.chain'_cons']
    constructor
    · intro y hy
      have hhead : ((rest.scanl (updatePure cfg) (updatePure cfg s t)).map
          QwenState.seq_len_cached).head? = some (updatePure cfg s t).seq_len_cached := by
        cases rest <;> simp [List.scanl]
      rw [hhead, Option.mem_some_iff] at hy
      exact hy ▸ hstep
    · have hch' : List.Chain' (· ≤ ·) rest := hch.tail
      rcases hinv' with h0 | ⟨u', hu', hmx⟩
      · exact ih (updatePure cfg s t) 0 (fun x _ => Nat.zero_le x) hch' (Or.inl h0)
      · exact ih (updatePure cfg s t) u' hu' hch' (Or.inr hmx)

/-- Claim C8: starting from the freshly constructed state, any finite sequence
of recompute calls with non-decreasing `true_len` values produces a
non-decreasing sequence of `cached_length` values (the list of states
visited is `scanl`; its `cached_length` projections form a `≤`-chain). -/
theorem qwen_cached_length_monotone (cfg : QwenConfig)
    (hrd : cfg.rotary_dim ≠ 2) (ts : List ℕ)
    (hpos : ∀ t ∈ ts, 1 ≤ t) (hch : List.Chain' (· ≤ ·) ts) :
    List.Chain' (· ≤ ·)
      ((ts.scanl (updatePure cfg) (qwenInit cfg)).map QwenState.seq_len_cached) :=
  scanl_len_chain cfg ts (qwenInit cfg) 0 (fun t _ => Nat.zero_le t) hch (Or.inl rfl)

/-- Witness for `qwen_cached_length_monotone` on the call sequence
`[5, 9000, 9000, 40000]`. -/
theorem qwen_cached_length_monotone_witness :
    List.Chain' (· ≤ ·)
      (([5, 9000, 9000, 40000].scanl (updatePure cfgW) (qwenInit cfgW)).map
        QwenState.seq_len_cached) :=
  qwen_cached_length_monotone cfgW (by norm_num [cfgW]) [5, 9000, 9000, 40000]
    (by decide) (by norm_num [List.chain'_cons])

/-! ### Construction-time behaviour -/

/-- Claim C10: immediately after construction of the adaptive variant the cache
metadata does not describe the materialized table: `_seq_len_cached = 0`
and `_ntk_alpha_cached = 1`, while the table is the *baseline* one —
`max_position_embeddings` rows built from the unscaled `base`.
Consequently the first recompute call always rebuilds, for every
`true_len ≥ 1` (the trigger condition holds, and when `rotary_dim ≠ 2` the
call returns a rebuilt state of `max(2·true_len, 16)` rows), even when
`true_len ≤ reference_length`. -/
theorem qwenInit_spec (cfg : QwenConfig) :
    (qwenInit cfg).seq_len_cached = 0 ∧
    (qwenInit cfg).ntk_alpha_cached = 1 ∧
    (qwenInit cfg).cos_sin_cache.length = cfg.max_position_embeddings ∧
    (∀ p < cfg.max_position_embeddings,
      (qwenInit cfg).cos_sin_cache[p]? =
        some (cacheRow cfg.base cfg.rotary_dim p)) ∧
    (∀ t, 1 ≤ t →
      (t > (qwenInit cfg).seq_len_cached ∨
        get_ntk_alpha cfg t ≠ (qwenInit cfg).ntk_alpha_cached) ∧
      (cfg.rotary_dim ≠ 2 →
        ∃ s', update_cos_sin_cache cfg (qwenInit cfg) t = .ok s' ∧
          s'.seq_len_cached = max (2 * t) 16 ∧
          s'.ntk_alpha_cached = get_ntk_alpha cfg t)) := by
  refine ⟨rfl, rfl, buildCosSinTable_length _ _ _,
    fun p hp => buildCosSinTable_getElem? _ _ hp, fun t ht => ⟨Or.inl ht, fun hrd => ?_⟩⟩
  refine ⟨updatePure cfg (qwenInit cfg) t,
    update_cos_sin_cache_eq_ok cfg (qwenInit cfg) t hrd, ?_, ?_⟩ <;>
    rw [updatePure_of_rebuild cfg (qwenInit cfg) t (Or.inl ht)]

/-- Witness for `qwenInit_spec`: at the Qwen-7B configuration the first
call with `true_len = 1 ≤ 8192` still rebuilds, to 16 rows. -/
theorem qwenInit_spec_witness :
    (qwenInit cfgW).seq_len_cached = 0 ∧
    (∃ s', update_cos_sin_cache cfgW (qwenInit cfgW) 1 = .ok s' ∧
      s'.seq_len_cached = max (2 * 1) 16 ∧
      s'.ntk_alpha_cached = get_ntk_alpha cfgW 1) :=
  ⟨(qwenInit_spec cfgW).1,
    ((qwenInit_spec cfgW).2.2.2.2 1 (by norm_num)).2 (by norm_num [cfgW])⟩

/-- Claim C6, amended: with `rotary_dim = 2`, the *fixed* dynamic-NTK variant
fails at construction time (its `_compute_cos_sin_cache` raises the
division-by-zero while building the cache), but the *adaptive* variant
constructs successfully — its constructor builds the full baseline cache —
and the division-by-zero instead occurs at the first recompute call, for
every `true_len ≥ 1`. -/
theorem rotary_dim_two_guard (cfg : QwenConfig) (hrd : cfg.rotary_dim = 2) :
    (∀ scaling_factor : ℚ,
      DynamicNTKScalingRotaryEmbedding_compute_cos_sin_cache cfg.toRotaryConfig
        scaling_factor = .error "ZeroDivisionError") ∧
    (qwenInit cfg).cos_sin_cache.length = cfg.max_position_embeddings ∧
    (∀ t, 1 ≤ t →
      update_cos_sin_cache cfg (qwenInit cfg) t = .error "ZeroDivisionError") := by
  refine ⟨fun sf => ?_, buildCosSinTable_length _ _ _,
    fun t ht => update_cos_sin_cache_error cfg (qwenInit cfg) t (Or.inl ht) hrd⟩
  by_cases hmpe : cfg.max_position_embeddings = 0
  · simp [DynamicNTKScalingRotaryEmbedding_compute_cos_sin_cache, hmpe]
  · simp [DynamicNTKScalingRotaryEmbedding_compute_cos_sin_cache, hmpe, hrd]

/-- Witness for `rotary_dim_two_guard` at the concrete `rotary_dim = 2`
configuration. -/
theorem rotary_dim_two_guard_witness :
    DynamicNTKScalingRotaryEmbedding_compute_cos_sin_cache cfgRd2.toRotaryConfig 4 =
      .error "ZeroDivisionError" ∧
    update_cos_sin_cache cfgRd2 (qwenInit cfgRd2) 1 = .error "ZeroDivisionError" :=
  ⟨(rotary_dim_two_guard cfgRd2 rfl).1 4,
    (rotary_dim_two_guard cfgRd2 rfl).2.2 1 (by norm_num)⟩

/-- Counterexample to `C6` as stated: with `rotary_dim = 2` the adaptive
variant does *not* fail at construction — the constructor completes and
builds a 64-row baseline cache — and the failure is deferred to the first
recompute call. -/
theorem qwen_rd2_construction_cex :
    (qwenInit cfgRd2).cos_sin_cache.length = 64 ∧
    (qwenInit cfgRd2).seq_len_cached = 0 ∧
    update_cos_sin_cache cfgRd2 (qwenInit cfgRd2) 1 = .error "ZeroDivisionError" := by
  refine ⟨?_, rfl, update_cos_sin_cache_error cfgRd2 (qwenInit cfgRd2) 1
    (Or.inl (by norm_num [qwenInit])) rfl⟩
  have h := buildCosSinTable_length cfgRd2.base cfgRd2.rotary_dim
    cfgRd2.max_position_embeddings
  simpa [cfgRd2] using h

/-! ### Forward: error handling -/

lemma qwenForward_nil_error {α : Type} (cfg : QwenConfig)
    (rotQ rotK : ℕ → List (List ℝ) → Bool → ℕ → α → α)
    (positions : List ℕ) (query key : List α) (input_metadata : InputMetadata)
    (s : QwenState) (h1 : input_metadata.prompt_lens = [])
    (h2 : input_metadata.context_lens = []) :
    qwenForward cfg rotQ rotK positions query key input_metadata s =
      .error "torch.cat(): expected a non-empty list of tensors" := by
  have hm : seqLensAndMode input_metadata = ([], true) := by
    simp [seqLensAndMode, h1, h2]
  simp [qwenForward, hm, qwenForwardLoop]

/-- Claim C4, amended: a batch with zero samples (empty `prompt_lens` and
empty `context_lens`) makes `forward` raise — `torch.cat` on the empty
list of per-sample slices — rather than return empty buffers. -/
theorem qwen_forward_empty_batch_errors {α : Type} (cfg : QwenConfig)
    (rotQ rotK : ℕ → List (List ℝ) → Bool → ℕ → α → α)
    (positions : List ℕ) (query key : List α) (input_metadata : InputMetadata)
    (s : QwenState) (h1 : input_metadata.prompt_lens = [])
    (h2 : input_metadata.context_lens = []) :
    qwenForward cfg rotQ rotK positions query key input_metadata s =
      .error "torch.cat(): expected a non-empty list of tensors" :=
  qwenForward_nil_error cfg rotQ rotK positions query key input_metadata s h1 h2

/-- Witness for `qwen_forward_empty_batch_errors` at concrete empty
inputs. -/
theorem qwen_forward_empty_batch_errors_witness :
    qwenForward cfgW (idKernel ℕ) (idKernel ℕ) [] [] [] ⟨[], []⟩ (qwenInit cfgW) =
      .error "torch.cat(): expected a non-empty list of tensors" :=
  qwen_forward_empty_batch_errors cfgW (idKernel ℕ) (idKernel ℕ) [] [] []
    ⟨[], []⟩ (qwenInit cfgW) rfl rfl

/-- Counterexample to `C4` as stated: the zero-sample batch is *not* a
no-op returning empty buffers — `forward` ends in the `torch.cat` error. -/
theorem qwen_forward_empty_batch_cex :
    qwenForward cfgW (idKernel ℕ) (idKernel ℕ) [] [] [] ⟨[], []⟩ (qwenInit cfgW) =
      .error "torch.cat(): expected a non-empty list of tensors" ∧
    ∀ out : List ℕ × List ℕ × QwenState,
      qwenForward cfgW (idKernel ℕ) (idKernel ℕ) [] [] [] ⟨[], []⟩
        (qwenInit cfgW) ≠ .ok out := by
  have h := qwenForward_nil_error cfgW (idKernel ℕ) (idKernel ℕ) [] [] []
    ⟨[], []⟩ (qwenInit cfgW) rfl rfl
  exact ⟨h, fun out hok => by rw [h] at hok; exact absurd hok (by simp)⟩

/-- Claim C5, amended: when both `prompt_lens` and `context_lens` are
populated, `forward` does not reject the call — it silently behaves as a
prefill call on `prompt_lens`, ignoring `context_lens` entirely; when
neither is populated, the call fails with the empty-`torch.cat` error. -/
theorem qwen_forward_metadata_dispatch {α : Type} (cfg : QwenConfig)
    (rotQ rotK : ℕ → List (List ℝ) → Bool → ℕ → α → α)
    (positions : List ℕ) (query key : List α) (input_metadata : InputMetadata)
    (s : QwenState) :
    (input_metadata.prompt_lens ≠ [] →
      qwenForward cfg rotQ rotK positions query key input_metadata s =
        qwenForward cfg rotQ rotK positions query key
          ⟨input_metadata.prompt_lens, []⟩ s) ∧
    (input_metadata.prompt_lens = [] → input_metadata.context_lens = [] →
      qwenForward cfg rotQ rotK positions query key input_metadata s =
        .error "torch.cat(): expected a non-empty list of tensors") := by
  constructor
  · intro hne
    have hlen : 0 < input_metadata.prompt_lens.length := List.length_pos.mpr hne
    have hm : seqLensAndMode input_metadata = (input_metadata.prompt_lens, false) := by
      simp [seqLensAndMode, hlen]
    have hm' : seqLensAndMode ⟨input_metadata.prompt_lens, []⟩ =
        (input_metadata.prompt_lens, false) := by
      simp [seqLensAndMode, hlen]
    simp only [qwenForward, hm, hm']
  · exact qwenForward_nil_error cfg rotQ rotK positions query key input_metadata s

/-- Witness for `qwen_forward_metadata_dispatch`: with both fields
populated the call is processed as a prefill on `prompt_lens = [1]`. -/
theorem qwen_forward_metadata_dispatch_witness :
    qwenForward cfgW (idKernel ℕ) (idKernel ℕ) [0] [7] [9] ⟨[1], [5]⟩
        (qwenInit cfgW) =
      qwenForward cfgW (idKernel ℕ) (idKernel ℕ) [0] [7] [9] ⟨[1], []⟩
        (qwenInit cfgW) :=
  (qwen_forward_metadata_dispatch cfgW (idKernel ℕ) (idKernel ℕ) [0] [7] [9]
    ⟨[1], [5]⟩ (qwenInit cfgW)).1 (by simp)

/-- Counterexample to `C5` as stated: metadata with *both* `prompt_lens`
and `context_lens` populated is not rejected — the call succeeds,
processed as a prefill on `prompt_lens` (with `context_lens = [5]`
silently ignored). -/
theorem qwen_forward_both_populated_cex :
    qwenForward cfgW (idKernel ℕ) (idKernel ℕ) [0] [7] [9] ⟨[1], [5]⟩
        (qwenInit cfgW) =
      .ok ([7], [9], updatePure cfgW (qwenInit cfgW) 1) := by
  have hup := update_cos_sin_cache_eq_ok cfgW (qwenInit cfgW) 1 (by norm_num [cfgW])
  simp [qwenForward, qwenForwardLoop, seqLensAndMode, applyKernel, idKernel, hup]

/-! ### Forward: slice bookkeeping -/

lemma applyKernel_length {α : Type} (rot : ℕ → List (List ℝ) → Bool → ℕ → α → α)
    (head_size : ℕ) (cache : List (List ℝ)) (style : Bool)
    (ps : List ℕ) (xs : List α) :
    (applyKernel rot head_size cache style ps xs).length = min ps.length xs.length := by
  simp [applyKernel]

lemma applyKernel_getElem? {α : Type} (rot : ℕ → List (List ℝ) → Bool → ℕ → α → α)
    (head_size : ℕ) (cache : List (List ℝ)) (style : Bool)
    (ps : List ℕ) (xs : List α) {i : ℕ} {p : ℕ} {x : α}
    (hps : ps[i]? = some p) (hxs : xs[i]? = some x) :
    (applyKernel rot head_size cache style ps xs)[i]? =
      some (rot head_size cache style p x) := by
  simp [applyKernel, List.getElem?_zipWith, hps, hxs]

lemma sampleWidth_end_sub (is_continue : Bool) (a l : ℕ) :
    (if is_continue then a + 1 else a + l) - a = sampleWidth is_continue l := by
  cases is_continue <;> simp [sampleWidth]

lemma sampleWidth_end (is_continue : Bool) (a l : ℕ) :
    (if is_continue then a + 1 else a + l) = a + sampleWidth is_continue l := by
  cases is_continue <;> simp [sampleWidth]

lemma stateAfter_zero (cfg : QwenConfig) (s : QwenState) (l : ℕ) (rest : List ℕ) :
    stateAfter cfg s (l :: rest) 0 = updatePure cfg s l := by
  simp [stateAfter]

lemma stateAfter_succ (cfg : QwenConfig) (s : QwenState) (l : ℕ) (rest : List ℕ)
    (i : ℕ) :
    stateAfter cfg s (l :: rest) (i + 1) =
      stateAfter cfg (updatePure cfg s l) rest i := by
  simp [stateAfter, List.take_succ_cons]

lemma sampleIdx_single (is_continue : Bool) (l t : ℕ) :
    sampleIdx is_continue [l] t = 0 := by
  simp [sampleIdx]

lemma sampleIdx_cons_lt (is_continue : Bool) (l r : ℕ) (rest : List ℕ) {t : ℕ}
    (h : t < sampleWidth is_continue l) :
    sampleIdx is_continue (l :: r :: rest) t = 0 := by
  simp [sampleIdx, h]

lemma sampleIdx_cons_ge (is_continue : Bool) (l r : ℕ) (rest : List ℕ) {t : ℕ}
    (h : ¬t < sampleWidth is_continue l) :
    sampleIdx is_continue (l :: r :: rest) t =
      sampleIdx is_continue (r :: rest) (t - sampleWidth is_continue l) + 1 := by
  simp [sampleIdx, h]

lemma qwenForwardLoop_last {α : Type} (cfg : QwenConfig)
    (rotQ rotK : ℕ → List (List ℝ) → Bool → ℕ → α → α)
    (positions : List ℕ) (query key : List α) (is_continue : Bool)
    (s : QwenState) (a l : ℕ) {s2 : QwenState}
    (hup : update_cos_sin_cache cfg s l = .ok s2) :
    qwenForwardLoop cfg rotQ rotK positions query key is_continue s a [l] =
      .ok (applyKernel rotQ cfg.head_size s2.cos_sin_cache cfg.is_neox_style
             (positions.drop a) (query.drop a),
           applyKernel rotK cfg.head_size s2.cos_sin_cache cfg.is_neox_style
             (positions.drop a) (key.drop a),
           s2) := by
  simp [qwenForwardLoop, hup]

lemma qwenForwardLoop_cons_ok {α : Type} (cfg : QwenConfig)
    (rotQ rotK : ℕ → List (List ℝ) → Bool → ℕ → α → α)
    (positions : List ℕ) (query key : List α) (is_continue : Bool)
    (s : QwenState) (a l : ℕ) {rest : List ℕ} (hne : rest ≠ [])
    {s2 s3 : QwenState} {q2 k2 : List α}
    (hup : update_cos_sin_cache cfg s l = .ok s2)
    (hrec : qwenForwardLoop cfg rotQ rotK positions query key is_continue s2
      (a + sampleWidth is_continue l) rest = .ok (q2, k2, s3)) :
    qwenForwardLoop cfg rotQ rotK positions query key is_continue s a
        (l :: rest) =
      .ok (applyKernel rotQ cfg.head_size s2.cos_sin_cache cfg.is_neox_style
             ((positions.drop a).take (sampleWidth is_continue l))
             ((query.drop a).take (sampleWidth is_continue l)) ++ q2,
           applyKernel rotK cfg.head_size s2.cos_sin_cache cfg.is_neox_style
             ((positions.drop a).take (sampleWidth is_continue l))
             ((key.drop a).take (sampleWidth is_continue l)) ++ k2,
           s3) := by
  rw [← sampleWidth_end is_continue a l] at hrec
  have hEmp : rest.isEmpty = false := by
    cases rest
    · exact absurd rfl hne
    · rfl
  simp [qwenForwardLoop, hup, hrec, hEmp, sampleWidth_end_sub]

lemma qwenForwardLoop_rows {α : Type} (cfg : QwenConfig)
    (rotQ rotK : ℕ → List (List ℝ) → Bool → ℕ → α → α)
    (hrd : cfg.rotary_dim ≠ 2) (is_continue : Bool)
    (positions : List ℕ) (query key : List α)
    (hp : positions.length = query.length) (hk : key.length = query.length) :
    ∀ (lens : List ℕ) (s : QwenState) (a : ℕ), lens ≠ [] →
      a + sumInit is_continue lens ≤ query.length →
      ∃ q' k',
        qwenForwardLoop cfg rotQ rotK positions query key is_continue s a lens =
          .ok (q', k', lens.foldl (updatePure cfg) s) ∧
        q'.length = query.length - a ∧ k'.length = query.length - a ∧
        (∀ t pv qv kv, positions[a + t]? = some pv → query[a + t]? = some qv →
          key[a + t]? = some kv →
          q'[t]? = some (rotQ cfg.head_size
            (stateAfter cfg s lens (sampleIdx is_continue lens t)).cos_sin_cache
            cfg.is_neox_style pv qv) ∧
          k'[t]? = some (rotK cfg.head_size
            (stateAfter cfg s lens (sampleIdx is_continue lens t)).cos_sin_cache
            cfg.is_neox_style pv kv)) := by
  intro lens
  induction lens with
  | nil =>
    intro s a hne _
    exact absurd rfl hne
  | cons l rest ih =>
    intro s a _ hsum
    have hup := update_cos_sin_cache_eq_ok cfg s l hrd
    cases rest with
    | nil =>
      refine ⟨_, _, qwenForwardLoop_last cfg rotQ rotK positions query key
        is_continue s a l hup, ?_, ?_, ?_⟩
      · rw [applyKernel_length, List.length_drop, List.length_drop, hp, min_self]
      · rw [applyKernel_length, List.length_drop, List.length_drop, hp, hk, min_self]
      · intro t pv qv kv hpv hqv hkv
        have h1 : (positions.drop a)[t]? = some pv := by
          rw [List.getElem?_drop]; exact hpv
        have h2 : (query.drop a)[t]? = some qv := by
          rw [List.getElem?_drop]; exact hqv
        have h3 : (key.drop a)[t]? = some kv := by
          rw [List.getElem?_drop]; exact hkv
        rw [sampleIdx_single, stateAfter_zero]
        exact ⟨applyKernel_getElem? _ _ _ _ _ _ h1 h2,
          applyKernel_getElem? _ _ _ _ _ _ h1 h3⟩
    | cons r rest' =>
      have hsumc : sumInit is_continue (l :: r :: rest') =
          sampleWidth is_continue l + sumInit is_continue (r :: rest') := by
        simp [sumInit]
      have hsum' : (a + sampleWidth is_continue l) +
          sumInit is_continue (r :: rest') ≤ query.length := by
        rw [hsumc] at hsum
        omega
      have haw : a + sampleWidth is_continue l ≤ query.length := by omega
      obtain ⟨q2, k2, hrec, hlq2, hlk2, hrow2⟩ :=
        ih (updatePure cfg s l) (a + sampleWidth is_continue l)
          (List.cons_ne_nil r rest') hsum'
      have hfirstQ : (applyKernel rotQ cfg.head_size
          (updatePure cfg s l).cos_sin_cache cfg.is_neox_style
          ((positions.drop a).take (sampleWidth is_continue l))
          ((query.drop a).take (sampleWidth is_continue l))).length =
          sampleWidth is_continue l := by
        rw [applyKernel_length]
        simp only [List.length_take, List.length_drop, hp]
        omega
      have hfirstK : (applyKernel rotK cfg.head_size
          (updatePure cfg s l).cos_sin_cache cfg.is_neox_style
          ((positions.drop a).take (sampleWidth is_continue l))
          ((key.drop a).take (sampleWidth is_continue l))).length =
          sampleWidth is_continue l := by
        rw [applyKernel_length]
        simp only [List.length_take, List.length_drop, hp, hk]
        omega
      refine ⟨_, _, qwenForwardLoop_cons_ok cfg rotQ rotK positions query key
        is_continue s a l (List.cons_ne_nil r rest') hup hrec, ?_, ?_, ?_⟩
      · rw [List.length_append, hfirstQ, hlq2]
        omega
      · rw [List.length_append, hfirstK, hlk2]
        omega
      · intro t pv qv kv hpv hqv hkv
        by_cases ht : t < sampleWidth is_continue l
        · have h1 : ((positions.drop a).take (sampleWidth is_continue l))[t]? =
              some pv := by
            rw [List.getElem?_take_of_lt ht, List.getElem?_drop]; exact hpv
          have h2 : ((query.drop a).take (sampleWidth is_continue l))[t]? =
              some qv := by
            rw [List.getElem?_take_of_lt ht, List.getElem?_drop]; exact hqv
          have h3 : ((key.drop a).take (sampleWidth is_continue l))[t]? =
              some kv := by
            rw [List.getElem?_take_of_lt ht, List.getElem?_drop]; exact hkv
          rw [sampleIdx_cons_lt is_continue l r rest' ht, stateAfter_zero]
          constructor
          · rw [List.getElem?_append_left (by rw [hfirstQ]; exact ht)]
            exact applyKernel_getElem? _ _ _ _ _ _ h1 h2
          · rw [List.getElem?_append_left (by rw [hfirstK]; exact ht)]
            exact applyKernel_getElem? _ _ _ _ _ _ h1 h3
        · have hge : sampleWidth is_continue l ≤ t := not_lt.mp ht
          have harith : a + sampleWidth is_continue l +
              (t - sampleWidth is_continue l) = a + t := by omega
          obtain ⟨hq2, hk2⟩ := hrow2 (t - sampleWidth is_continue l) pv qv kv
            (by rw [harith]; exact hpv) (by rw [harith]; exact hqv)
            (by rw [harith]; exact hkv)
          rw [sampleIdx_cons_ge is_continue l r rest' ht, stateAfter_succ]
          constructor
          · rw [List.getElem?_append_right (by rw [hfirstQ]; exact hge), hfirstQ]
            exact hq2
          · rw [List.getElem?_append_right (by rw [hfirstK]; exact hge), hfirstK]
            exact hk2

/-- Claim C3: for every non-empty batch, `forward` partitions the flat
position/query/key buffers into consecutive per-sample slices in metadata
order — `sampleWidth` rows per sample (the declared length in prefill mode,
one token in decode mode), the last slice running to the end of the
buffers — and the concatenated outputs preserve the row order of the
inputs: output row `t` is exactly the kernel applied to input row `t`
(query and key alike), with positions row `t`, under the cache state in
force for the sample `sampleIdx` containing `t`; the final state is the
fold of the recompute policy over the per-sample lengths. -/
theorem qwen_forward_rows {α : Type} (cfg : QwenConfig)
    (rotQ rotK : ℕ → List (List ℝ) → Bool → ℕ → α → α)
    (hrd : cfg.rotary_dim ≠ 2)
    (positions : List ℕ) (query key : List α)
    (input_metadata : InputMetadata) (s : QwenState)
    (seq_lens : List ℕ) (is_continue : Bool)
    (hm : seqLensAndMode input_metadata = (seq_lens, is_continue))
    (hne : seq_lens ≠ [])
    (hlens : ∀ l ∈ seq_lens, 1 ≤ l)
    (hp : positions.length = query.length) (hk : key.length = query.length)
    (hsum : sumInit is_continue seq_lens ≤ query.length) :
    ∃ q' k',
      qwenForward cfg rotQ rotK positions query key input_metadata s =
        .ok (q', k', seq_lens.foldl (updatePure cfg) s) ∧
      q'.length = query.length ∧ k'.length = query.length ∧
      ∀ t pv qv kv, positions[t]? = some pv → query[t]? = some qv →
        key[t]? = some kv →
        q'[t]? = some (rotQ cfg.head_size
          (stateAfter cfg s seq_lens (sampleIdx is_continue seq_lens t)).cos_sin_cache
          cfg.is_neox_style pv qv) ∧
        k'[t]? = some (rotK cfg.head_size
          (stateAfter cfg s seq_lens (sampleIdx is_continue seq_lens t)).cos_sin_cache
          cfg.is_neox_style pv kv) := by
  obtain ⟨q', k', hloop, h1, h2, hrow⟩ :=
    qwenForwardLoop_rows cfg rotQ rotK hrd is_continue positions query key hp hk
      seq_lens s 0 hne (by simpa using hsum)
  have hEmp : seq_lens.isEmpty = false := by
    cases seq_lens
    · exact absurd rfl hne
    · rfl
  refine ⟨q', k', ?_, by simpa using h1, by simpa using h2,
    fun t pv qv kv hpv hqv hkv => ?_⟩
  · simp only [qwenForward, hm]
    rw [hloop]
    simp [hEmp]
  · exact hrow t pv qv kv (by simpa using hpv) (by simpa using hqv)
      (by simpa using hkv)

/-- Witness for `qwen_forward_rows`: a concrete prefill batch with
declared lengths `[2, 1]`, three buffer rows, identity kernel. -/
theorem qwen_forward_rows_witness :
    ∃ q' k',
      qwenForward cfgW (idKernel ℕ) (idKernel ℕ) [0, 1, 0] [10, 11, 12]
          [20, 21, 22] ⟨[2, 1], []⟩ (qwenInit cfgW) =
        .ok (q', k', [2, 1].foldl (updatePure cfgW) (qwenInit cfgW)) ∧
      q'.length = ([10, 11, 12] : List ℕ).length ∧
      k'.length = ([10, 11, 12] : List ℕ).length ∧
      ∀ t pv qv kv, ([0, 1, 0] : List ℕ)[t]? = some pv →
        ([10, 11, 12] : List ℕ)[t]? = some qv →
        ([20, 21, 22] : List ℕ)[t]? = some kv →
        q'[t]? = some (idKernel ℕ cfgW.head_size
          (stateAfter cfgW (qwenInit cfgW) [2, 1]
            (sampleIdx false [2, 1] t)).cos_sin_cache
          cfgW.is_neox_style pv qv) ∧
        k'[t]? = some (idKernel ℕ cfgW.head_size
          (stateAfter cfgW (qwenInit cfgW) [2, 1]
            (sampleIdx false [2, 1] t)).cos_sin_cache
          cfgW.is_neox_style pv kv) :=
  qwen_forward_rows cfgW (idKernel ℕ) (idKernel ℕ) (by norm_num [cfgW])
    [0, 1, 0] [10, 11, 12] [20, 21, 22] ⟨[2, 1], []⟩ (qwenInit cfgW)
    [2, 1] false (by decide) (by decide) (by decide) rfl rfl (by decide)
